import Mathlib

/-!
Verification of the browser-driven acquisition state machine of the KMFK
KOFIA scraper (`scraper.py`, `config.py`).

Each section embeds one operation of the source as an executable Lean
function.  Browser/driver/filesystem effects are replaced by explicit
environment functions (what the driver would report at each query), and the
control flow of the Python code — retry loops, exception handlers, early
returns — is translated line by line.  Exceptions are modelled with
`Except`/`Option` results; a `for`-loop with a fixed bound becomes a
fuel-indexed structural recursion whose fuel is the loop bound.
-/

namespace KMFK

/-! ### Constants (config.py lines 96-98) -/

/-- config.py line 97: `MAX_RETRIES = 3`. -/
def MAX_RETRIES : Nat := 3

/-! ### C1 — `KOFIAScraper.download_dataset` retry loop (scraper.py lines 915-1756)

One iteration of the `for attempt in range(MAX_RETRIES)` loop either
completes the whole per-dataset sequence (`success = True; break`), raises a
Selenium-class exception (`NoSuchElementException`, `TimeoutException`,
`StaleElementReferenceException`, `WebDriverException` — caught at line 1744,
loop continues), or raises any other exception (caught at line 1752,
`break` — the loop terminates at once).  `outcomes attempt` gives the
behaviour of the body on the given attempt. -/

inductive AttemptOutcome where
  | success
  | seleniumError
  | otherError
deriving DecidableEq, Repr

/-- The attempt loop of `download_dataset`: first argument is the attempt
index, second the remaining iterations (`MAX_RETRIES - attempt`).  Returns
the local variable `success` at `return success` (line 1756). -/
def downloadDatasetGo (outcomes : Nat → AttemptOutcome) : Nat → Nat → Bool
  | _, 0 => false
  | attempt, fuel+1 =>
    match outcomes attempt with
    | AttemptOutcome.success => true
    | AttemptOutcome.seleniumError => downloadDatasetGo outcomes (attempt+1) fuel
    | AttemptOutcome.otherError => false

/-- `download_dataset` as a total function: every exception of the body is
caught inside the method, so the caller always receives a Bool. -/
def download_dataset (outcomes : Nat → AttemptOutcome) : Bool :=
  downloadDatasetGo outcomes 0 MAX_RETRIES

/-- Number of attempts the loop actually executes. -/
def downloadAttemptsGo (outcomes : Nat → AttemptOutcome) : Nat → Nat → Nat
  | _, 0 => 0
  | attempt, fuel+1 =>
    match outcomes attempt with
    | AttemptOutcome.success => 1
    | AttemptOutcome.seleniumError => 1 + downloadAttemptsGo outcomes (attempt+1) fuel
    | AttemptOutcome.otherError => 1

def downloadAttempts (outcomes : Nat → AttemptOutcome) : Nat :=
  downloadAttemptsGo outcomes 0 MAX_RETRIES

/-- An outcome stream whose first attempt raises a non-Selenium exception and
whose later attempts would succeed. -/
def c1OtherThenSuccess : Nat → AttemptOutcome := fun n =>
  if n = 0 then AttemptOutcome.otherError else AttemptOutcome.success

/-- Two Selenium-class transient failures followed by a success. -/
def c1Transient : Nat → AttemptOutcome := fun n =>
  if n < 2 then AttemptOutcome.seleniumError else AttemptOutcome.success

theorem downloadDatasetGo_true_iff (outcomes : Nat → AttemptOutcome) :
    ∀ (fuel a : Nat), downloadDatasetGo outcomes a fuel = true ↔
      ∃ k, k < fuel ∧ outcomes (a + k) = AttemptOutcome.success ∧
        ∀ j, j < k → outcomes (a + j) = AttemptOutcome.seleniumError := by
  intro fuel
  induction fuel with
  | zero =>
    intro a
    simp [downloadDatasetGo]
  | succ n ih =>
    intro a
    rw [downloadDatasetGo]
    cases h : outcomes a with
    | success =>
      simp only [true_iff]
      exact ⟨0, Nat.succ_pos n, by simpa using h, fun j hj => absurd hj (Nat.not_lt_zero j)⟩
    | seleniumError =>
      rw [ih (a+1)]
      constructor
      · rintro ⟨k, hk, hs, hprev⟩
        refine ⟨k+1, Nat.succ_lt_succ hk, by simpa [Nat.add_assoc, Nat.add_comm 1 k] using hs, ?_⟩
        intro j hj
        cases j with
        | zero => simpa using h
        | succ j =>
          have := hprev j (Nat.lt_of_succ_lt_succ hj)
          simpa [Nat.add_assoc, Nat.add_comm 1 j] using this
      · rintro ⟨k, hk, hs, hprev⟩
        cases k with
        | zero => simp [h] at hs
        | succ k =>
          refine ⟨k, Nat.lt_of_succ_lt_succ hk, by simpa [Nat.add_assoc, Nat.add_comm 1 k] using hs, ?_⟩
          intro j hj
          have := hprev (j+1) (Nat.succ_lt_succ hj)
          simpa [Nat.add_assoc, Nat.add_comm 1 j] using this
    | otherError =>
      refine iff_of_false (by simp) ?_
      rintro ⟨k, hk, hs, hprev⟩
      cases k with
      | zero => simp [h] at hs
      | succ k =>
        have := hprev 0 (Nat.succ_pos k)
        simp [h] at this

theorem downloadAttemptsGo_le (outcomes : Nat → AttemptOutcome) :
    ∀ (fuel a : Nat), downloadAttemptsGo outcomes a fuel ≤ fuel := by
  intro fuel
  induction fuel with
  | zero => intro a; simp [downloadAttemptsGo]
  | succ n ih =>
    intro a
    rw [downloadAttemptsGo]
    cases outcomes a with
    | success => exact Nat.succ_le_succ (Nat.zero_le n)
    | seleniumError => simpa [Nat.add_comm 1] using Nat.succ_le_succ (ih (a+1))
    | otherError => exact Nat.succ_le_succ (Nat.zero_le n)

/-- Claim C1 counterexample: a non-Selenium failure inside attempt 1 is
caught but does NOT drive a retry — the loop breaks at once, only one attempt
is recorded, and the overall result is `false` even though attempt 2 would
have succeeded.  This refutes "every failure inside one attempt is caught and
drives a retry of the whole per-dataset sequence". -/
theorem download_dataset_unexpected_error_no_retry :
    download_dataset c1OtherThenSuccess = false
    ∧ downloadAttempts c1OtherThenSuccess = 1
    ∧ c1OtherThenSuccess 1 = AttemptOutcome.success := by
  refine ⟨rfl, rfl, rfl⟩

/-- Claim C1 (amended): `download_dataset` always returns a boolean (no
exception propagates to the caller); a Selenium-class failure drives a retry
of the whole per-dataset sequence bounded by `MAX_RETRIES` attempts, while
any other exception is caught but ends the loop immediately with result
`false`; Selenium-class transient failures on attempts 1 and 2 followed by
success on attempt 3 yield `true` with exactly 3 recorded attempts; and
exhausting all `MAX_RETRIES` attempts yields `false`. -/
theorem download_dataset_retry_policy (outcomes : Nat → AttemptOutcome) :
    (download_dataset outcomes = true ↔
      ∃ k, k < MAX_RETRIES ∧ outcomes k = AttemptOutcome.success ∧
        ∀ j, j < k → outcomes j = AttemptOutcome.seleniumError)
    ∧ downloadAttempts outcomes ≤ MAX_RETRIES
    ∧ ((∀ k, k < MAX_RETRIES → outcomes k = AttemptOutcome.seleniumError) →
        download_dataset outcomes = false)
    ∧ (outcomes 0 = AttemptOutcome.seleniumError →
       outcomes 1 = AttemptOutcome.seleniumError →
       outcomes 2 = AttemptOutcome.success →
       download_dataset outcomes = true ∧ downloadAttempts outcomes = 3) := by
  have hiff := downloadDatasetGo_true_iff outcomes MAX_RETRIES 0
  simp only [Nat.zero_add] at hiff
  refine ⟨hiff, downloadAttemptsGo_le outcomes MAX_RETRIES 0, ?_, ?_⟩
  · intro hall
    cases hres : download_dataset outcomes with
    | false => rfl
    | true =>
      rcases hiff.mp hres with ⟨k, hk, hs, -⟩
      rw [hall k hk] at hs
      exact absurd hs (by simp)
  · intro h0 h1 h2
    constructor
    · refine hiff.mpr ⟨2, by decide, h2, ?_⟩
      intro j hj
      interval_cases j
      · exact h0
      · exact h1
    · show downloadAttemptsGo outcomes 0 3 = 3
      simp [downloadAttemptsGo, h0, h1, h2]

/-- Witness for C1 (amended): the concrete transient stream fail, fail,
succeed gives overall success with exactly 3 attempts. -/
theorem download_dataset_retry_policy_witness :
    download_dataset c1Transient = true ∧ downloadAttempts c1Transient = 3 :=
  (download_dataset_retry_policy c1Transient).2.2.2 rfl rfl rfl

/-! ### C2 — driver initialization (scraper.py lines 98-195, config.py lines 25-79)

`_initialize_driver` calls `get_stealth_chrome_options(headless=HEADLESS_MODE)`
(line 107) and `get_chrome_options(headless=HEADLESS_MODE)` (lines 113, 181),
but the definitions in config.py (lines 25 and 58) declare NO parameters.  In
Python, calling a function with a keyword argument that matches no declared
parameter raises `TypeError`.  The surrounding `try` of `_initialize_driver`
catches only `WebDriverException` (line 193), which `TypeError` is not. -/

/-- config.py line 8: `BROWSER = "chrome"`. -/
def BROWSER : String := "chrome"

/-- config.py line 10: `USE_STEALTH = True`. -/
def USE_STEALTH : Bool := true

inductive PyExc where
  | typeError
  | webDriverException
  | valueError
deriving DecidableEq, Repr

/-- config.py line 25: `def get_chrome_options():` — empty parameter list. -/
def get_chrome_options_params : List String := []

/-- config.py line 58: `def get_stealth_chrome_options():` — empty parameter list. -/
def get_stealth_chrome_options_params : List String := []

/-- Python call semantics for keyword arguments: the call raises `TypeError`
unless every keyword names a declared parameter. -/
def callWithKeywords (params kwargs : List String) : Except PyExc Unit :=
  if kwargs.all (fun k => params.contains k) then Except.ok () else Except.error PyExc.typeError

/-- `KOFIAScraper._initialize_driver` (scraper.py lines 98-195) at the
granularity of its option-building calls: the body runs under a `try` whose
only handler is `except WebDriverException` (line 193), which logs and
re-raises; every other exception propagates untouched.  A successful
option build is followed by driver construction, modelled as succeeding. -/
def driver_init : Except PyExc Unit :=
  let body : Except PyExc Unit :=
    if BROWSER = "chrome" then
      if USE_STEALTH then
        match callWithKeywords get_stealth_chrome_options_params ["headless"] with
        | Except.error e => Except.error e
        | Except.ok _ => Except.ok ()
      else
        match callWithKeywords get_chrome_options_params ["headless"] with
        | Except.error e => Except.error e
        | Except.ok _ => Except.ok ()
    else if BROWSER = "firefox" then Except.ok ()
    else Except.error PyExc.valueError
  match body with
  | Except.error PyExc.webDriverException => Except.error PyExc.webDriverException
  | r => r

/-- Claim C2: with the shipped configuration (`BROWSER = "chrome"`,
`USE_STEALTH = True`), initializing the scraper's driver — the first thing
`KOFIAScraper.__init__` does — raises `TypeError` from the
`get_stealth_chrome_options(headless=...)` call, and `TypeError` is not the
`WebDriverException` the initializer's handler catches, so no scraper
session (sequential or parallel) can ever be constructed. -/
theorem kofiascraper_init_raises_type_error :
    driver_init = Except.error PyExc.typeError
    ∧ PyExc.typeError ≠ PyExc.webDriverException := by
  exact ⟨rfl, by decide⟩

/-! ### C3 — `KOFIAScraper.find_element_safely` (scraper.py lines 197-223)

`for attempt in range(MAX_RETRIES)` runs passes; inside each pass the
locators are tried in list order, returning the first element found; when a
whole pass fails and passes remain, the method sleeps `RETRY_DELAY` plus
jitter; on the final failing pass it captures a screenshot (when a
`screenshot_name` was supplied) and raises `NoSuchElementException`.
`found a i` tells whether locator number `i` locates the element on pass
`a`; `numLoc` is the length of the locator list; `shot` is whether a
screenshot name was supplied.  The result pairs the trace of observable
events with `some (pass, locatorIndex)` on success or `none` for the raise. -/

inductive FESEvent where
  | tryLoc (attempt locIdx : Nat)
  | sleep
  | screenshot
deriving DecidableEq, Repr

/-- One attempt pass: try locators `i, i+1, ...` (`rem` of them remain) in
order, stopping at the first success. -/
def fesPass (found : Nat → Nat → Bool) (a : Nat) : Nat → Nat → List FESEvent × Option Nat
  | _, 0 => ([], none)
  | i, rem+1 =>
    if found a i then ([FESEvent.tryLoc a i], some i)
    else
      let p := fesPass found a (i+1) rem
      (FESEvent.tryLoc a i :: p.1, p.2)

/-- The attempt loop: on a failed pass, sleep and re-try while passes remain,
else (final pass) screenshot if a name was supplied and raise. -/
def fesGo (found : Nat → Nat → Bool) (numLoc : Nat) (shot : Bool) :
    Nat → Nat → List FESEvent × Option (Nat × Nat)
  | _, 0 => ([], none)
  | a, 1 =>
    match fesPass found a 0 numLoc with
    | (evs, some i) => (evs, some (a, i))
    | (evs, none) => (evs ++ (if shot then [FESEvent.screenshot] else []), none)
  | a, fuel+2 =>
    match fesPass found a 0 numLoc with
    | (evs, some i) => (evs, some (a, i))
    | (evs, none) =>
      (evs ++ FESEvent.sleep :: (fesGo found numLoc shot (a+1) (fuel+1)).1,
       (fesGo found numLoc shot (a+1) (fuel+1)).2)

def find_element_safely (found : Nat → Nat → Bool) (numLoc : Nat) (shot : Bool) :
    List FESEvent × Option (Nat × Nat) :=
  fesGo found numLoc shot 0 MAX_RETRIES

theorem range_map_cons_shift (a i t : Nat) :
    (List.range (t+1)).map (fun j => FESEvent.tryLoc a (i+j))
      = FESEvent.tryLoc a i :: (List.range t).map (fun j => FESEvent.tryLoc a (i+1+j)) := by
  rw [List.range_succ_eq_map, List.map_cons, List.map_map]
  refine congrArg₂ List.cons (by simp) ?_
  refine List.map_congr_left ?_
  intro j hj
  simp only [Function.comp_apply]
  congr 1
  omega

theorem fesPass_found_first (found : Nat → Nat → Bool) (a : Nat) :
    ∀ (t i rem : Nat), t < rem → (∀ j, j < t → found a (i+j) = false) →
      found a (i+t) = true →
      fesPass found a i rem
        = ((List.range (t+1)).map (fun j => FESEvent.tryLoc a (i+j)), some (i+t)) := by
  intro t
  induction t with
  | zero =>
    intro i rem hrem hfail hsucc
    match rem, hrem with
    | rem+1, _ =>
      rw [fesPass]
      simp only [Nat.add_zero] at hsucc
      simp [hsucc, List.range_succ]
  | succ t ih =>
    intro i rem hrem hfail hsucc
    match rem, hrem with
    | rem+1, hrem =>
      rw [fesPass]
      have h0 : found a i = false := by simpa using hfail 0 (Nat.succ_pos t)
      rw [h0]
      simp only [Bool.false_eq_true, if_false]
      have hrec := ih (i+1) rem (Nat.lt_of_succ_lt_succ hrem)
        (fun j hj => by
          have := hfail (j+1) (Nat.succ_lt_succ hj)
          simpa [Nat.add_assoc, Nat.add_comm 1 j] using this)
        (by simpa [Nat.add_assoc, Nat.add_comm 1 t] using hsucc)
      rw [hrec]
      simp only [Prod.mk.injEq]
      constructor
      · exact (range_map_cons_shift a i (t+1)).symm
      · show (some (i+1+t) : Option Nat) = some (i+(t+1))
        congr 1
        omega

theorem fesPass_none_iff (found : Nat → Nat → Bool) (a : Nat) :
    ∀ (rem i : Nat), (fesPass found a i rem).2 = none ↔
      ∀ j, j < rem → found a (i+j) = false := by
  intro rem
  induction rem with
  | zero => intro i; simp [fesPass]
  | succ rem ih =>
    intro i
    rw [fesPass]
    cases h : found a i with
    | true =>
      refine iff_of_false (by simp [h]) ?_
      intro hall
      have := hall 0 (Nat.succ_pos rem)
      simp [h] at this
    | false =>
      simp only [Bool.false_eq_true, if_false]
      rw [ih (i+1)]
      constructor
      · intro hall j hj
        cases j with
        | zero => simpa using h
        | succ j =>
          have := hall j (Nat.lt_of_succ_lt_succ hj)
          simpa [Nat.add_assoc, Nat.add_comm 1 j] using this
      · intro hall j hj
        have := hall (j+1) (Nat.succ_lt_succ hj)
        simpa [Nat.add_assoc, Nat.add_comm 1 j] using this

theorem fesPass_shape (found : Nat → Nat → Bool) (a : Nat) :
    ∀ (rem i : Nat), ∃ m, (fesPass found a i rem).1
      = (List.range m).map (fun j => FESEvent.tryLoc a (i+j)) := by
  intro rem
  induction rem with
  | zero => exact fun i => ⟨0, by simp [fesPass]⟩
  | succ rem ih =>
    intro i
    rw [fesPass]
    cases h : found a i with
    | true =>
      refine ⟨1, ?_⟩
      simp [h, List.range_succ]
    | false =>
      obtain ⟨m, hm⟩ := ih (i+1)
      refine ⟨m+1, ?_⟩
      simp only [Bool.false_eq_true, if_false]
      show FESEvent.tryLoc a i :: (fesPass found a (i+1) rem).1
        = (List.range (m+1)).map (fun j => FESEvent.tryLoc a (i+j))
      rw [hm, range_map_cons_shift a i m]

theorem fesPass_no_sleep_no_shot (found : Nat → Nat → Bool) (a rem i : Nat) :
    (fesPass found a i rem).1.count FESEvent.sleep = 0
    ∧ FESEvent.screenshot ∉ (fesPass found a i rem).1 := by
  obtain ⟨m, hm⟩ := fesPass_shape found a rem i
  rw [hm]
  constructor
  · rw [List.count_eq_zero]
    intro hmem
    rcases List.mem_map.mp hmem with ⟨j, -, hj⟩
    exact FESEvent.noConfusion hj
  · intro hmem
    rcases List.mem_map.mp hmem with ⟨j, -, hj⟩
    exact FESEvent.noConfusion hj

theorem fesGo_none_iff (found : Nat → Nat → Bool) (numLoc : Nat) (shot : Bool) :
    ∀ (fuel a : Nat), (fesGo found numLoc shot a fuel).2 = none ↔
      ∀ b, b < fuel → ∀ i, i < numLoc → found (a+b) i = false := by
  intro fuel
  induction fuel with
  | zero => intro a; simp [fesGo]
  | succ fuel ih =>
    intro a
    rcases hp : fesPass found a 0 numLoc with ⟨evs, r⟩
    have hpassiff := fesPass_none_iff found a numLoc 0
    rw [hp] at hpassiff
    simp only [Nat.zero_add] at hpassiff
    cases fuel with
    | zero =>
      rw [Nat.zero_add, fesGo, hp]
      cases r with
      | some idx =>
        refine iff_of_false (by simp) ?_
        intro hall
        have hcontra : (some idx : Option Nat) = none := by
          refine hpassiff.mpr ?_
          intro j hj
          simpa using hall 0 (Nat.succ_pos 0) j hj
        exact Option.noConfusion hcontra
      | none =>
        refine iff_of_true rfl ?_
        intro b hb i hi
        have hb0 : b = 0 := Nat.lt_one_iff.mp hb
        subst hb0
        simpa using (hpassiff.mp rfl) i hi
    | succ f =>
      rw [show f+1+1 = f+2 from rfl, fesGo, hp]
      cases r with
      | some idx =>
        refine iff_of_false (by simp) ?_
        intro hall
        have hcontra : (some idx : Option Nat) = none := by
          refine hpassiff.mpr ?_
          intro j hj
          simpa using hall 0 (Nat.succ_pos (f+1)) j hj
        exact Option.noConfusion hcontra
      | none =>
        have hstep : (FESEvent.sleep :: (fesGo found numLoc shot (a+1) (f+1)).1,
            (fesGo found numLoc shot (a+1) (f+1)).2).2 = (fesGo found numLoc shot (a+1) (f+1)).2 := rfl
        show (fesGo found numLoc shot (a+1) (f+1)).2 = none ↔ _
        rw [ih (a+1)]
        have hpass0 : ∀ i, i < numLoc → found a i = false := fun i hi => by
          simpa using (hpassiff.mp rfl) i hi
        constructor
        · intro hall b hb i hi
          cases b with
          | zero => simpa using hpass0 i hi
          | succ b =>
            have := hall b (by omega) i hi
            simpa [Nat.add_assoc, Nat.add_comm 1 b] using this
        · intro hall b hb i hi
          have := hall (b+1) (by omega) i hi
          simpa [Nat.add_assoc, Nat.add_comm 1 b] using this

theorem fesGo_fail_events (found : Nat → Nat → Bool) (numLoc : Nat) (shot : Bool) :
    ∀ (fuel a : Nat), (fesGo found numLoc shot a (fuel+1)).2 = none →
      (fesGo found numLoc shot a (fuel+1)).1.count FESEvent.sleep = fuel
      ∧ (shot = true → FESEvent.screenshot ∈ (fesGo found numLoc shot a (fuel+1)).1) := by
  intro fuel
  induction fuel with
  | zero =>
    intro a
    rcases hp : fesPass found a 0 numLoc with ⟨evs, r⟩
    have hevs := fesPass_no_sleep_no_shot found a numLoc 0
    rw [hp] at hevs
    rw [Nat.zero_add, fesGo, hp]
    cases r with
    | some idx =>
      intro hnone
      exact absurd hnone (by simp)
    | none =>
      intro _
      have h0 : List.count FESEvent.sleep evs = 0 := hevs.1
      refine ⟨?_, ?_⟩
      · cases shot <;> simp [List.count_append, h0]
      · intro hs
        subst hs
        simp
  | succ fuel ih =>
    intro a
    rcases hp : fesPass found a 0 numLoc with ⟨evs, r⟩
    have hevs := fesPass_no_sleep_no_shot found a numLoc 0
    rw [hp] at hevs
    rw [show fuel+1+1 = fuel+2 from rfl, fesGo, hp]
    cases r with
    | some idx =>
      intro hnone
      exact absurd hnone (by simp)
    | none =>
      intro hnone
      have hq : (fesGo found numLoc shot (a+1) (fuel+1)).2 = none := hnone
      have hrec := ih (a+1) hq
      have h0 : List.count FESEvent.sleep evs = 0 := hevs.1
      refine ⟨?_, ?_⟩
      · show List.count FESEvent.sleep
          (evs ++ FESEvent.sleep :: (fesGo found numLoc shot (a+1) (fuel+1)).1) = fuel + 1
        simp [List.count_append, List.count_cons, h0, hrec.1]
      · intro hs
        have := hrec.2 hs
        show FESEvent.screenshot ∈
          evs ++ FESEvent.sleep :: (fesGo found numLoc shot (a+1) (fuel+1)).1
        simp only [List.mem_append, List.mem_cons]
        exact Or.inr (Or.inr this)

/-- Claim C3: `find_element_safely` tries the locators in list order within
each attempt pass and returns the first element found without trying any
later locator; it raises `NoSuchElementException` exactly when every locator
fails on every one of the `MAX_RETRIES` passes; in that failing case it
sleeps between consecutive passes (`MAX_RETRIES - 1` sleeps) and captures a
diagnostic screenshot (when a screenshot name was supplied) before
raising. -/
theorem find_element_safely_spec (found : Nat → Nat → Bool) (numLoc : Nat) (shot : Bool) :
    (∀ n, n < numLoc → (∀ j, j < n → found 0 j = false) → found 0 n = true →
      find_element_safely found numLoc shot
        = ((List.range (n+1)).map (fun j => FESEvent.tryLoc 0 j), some (0, n)))
    ∧ ((find_element_safely found numLoc shot).2 = none ↔
        ∀ a, a < MAX_RETRIES → ∀ i, i < numLoc → found a i = false)
    ∧ ((find_element_safely found numLoc shot).2 = none →
        (find_element_safely found numLoc shot).1.count FESEvent.sleep = MAX_RETRIES - 1
        ∧ (shot = true → FESEvent.screenshot ∈ (find_element_safely found numLoc shot).1)) := by
  refine ⟨?_, ?_, ?_⟩
  · intro n hn hfail hsucc
    have hpass := fesPass_found_first found 0 n 0 numLoc hn
      (fun j hj => by simpa using hfail j hj) (by simpa using hsucc)
    show fesGo found numLoc shot 0 (1+2) = _
    rw [fesGo, hpass]
    simp
  · have := fesGo_none_iff found numLoc shot MAX_RETRIES 0
    simpa using this
  · intro hnone
    exact fesGo_fail_events found numLoc shot (MAX_RETRIES - 1) 0 hnone

/-- Witness for C3: with three locators of which only the second matches on
the first pass, the resolver tries locator 0 then locator 1, returns the
element found by locator 1, and never touches locator 2. -/
theorem find_element_safely_spec_witness :
    find_element_safely (fun _ i => i == 1) 3 true
      = ((List.range 2).map (fun j => FESEvent.tryLoc 0 j), some (0, 1)) :=
  (find_element_safely_spec (fun _ i => i == 1) 3 true).1 1 (by decide)
    (fun j hj => by
      have hj0 : j = 0 := Nat.lt_one_iff.mp hj
      subst hj0
      rfl) rfl
/-! ### C4 — `KOFIAScraper.wait_for_download_completion` (scraper.py lines 247-271)

The outer `while` loop polls the download directory; `listing t` is the
directory contents at poll `t` and `initial` the baseline snapshot.  For each
new file whose name has no in-progress suffix the inner `for _ in range(5)`
loop samples the file.  Each filesystem query during the size check consumes
the next value of `obs : Nat → Option Nat` (`none` = the file does not
exist, `some s` = it exists with size `s`): the loop keeps `current_size`
(initially `-1`), breaks when the file disappears, returns immediately when
two consecutive samples agree and are nonzero, and — crucially — after the
loop (lines 266-268) returns the path anyway if the file still exists, even
when no stability was ever observed. -/

/-- Python `str.endswith` for one suffix, computed on the character lists. -/
def strEndsWith (s suffix : String) : Bool :=
  suffix.toList.isSuffixOf s.toList

/-- scraper.py line 255: `fname.endswith(('.tmp', '.crdownload', '.part'))`. -/
def inProgressName (fname : String) : Bool :=
  strEndsWith fname ".tmp" || strEndsWith fname ".crdownload" || strEndsWith fname ".part"

inductive CheckResult where
  | stableReturn
  | fallbackReturn
  | noReturn
deriving DecidableEq, Repr

/-- The size-sampling loop: `cur` is `current_size`, `k` the index of the
next filesystem query, `rem` the remaining iterations of `range(5)`.  On
loop exit (or break) the post-loop `os.path.exists` check decides between
the fallback return and abandoning the candidate. -/
def sampleGo (obs : Nat → Option Nat) : Int → Nat → Nat → CheckResult
  | _, k, 0 =>
    if (obs k).isSome then CheckResult.fallbackReturn else CheckResult.noReturn
  | cur, k, rem+1 =>
    match obs k with
    | none =>
      if (obs (k+1)).isSome then CheckResult.fallbackReturn else CheckResult.noReturn
    | some s =>
      if cur = (s : Int) ∧ 0 < s then CheckResult.stableReturn
      else sampleGo obs (s : Int) (k+1) rem

def checkCandidate (obs : Nat → Option Nat) : CheckResult :=
  sampleGo obs (-1) 0 5

/-- One poll: scan the current listing for a file that is new relative to
the baseline, carries no in-progress suffix, and whose size check returns. -/
def pollScan (initial : List String) (obsFor : String → Nat → Option Nat) :
    List String → Option String
  | [] => none
  | f :: rest =>
    if initial.contains f then pollScan initial obsFor rest
    else if inProgressName f then pollScan initial obsFor rest
    else
      match checkCandidate (obsFor f) with
      | CheckResult.noReturn => pollScan initial obsFor rest
      | _ => some f

def waitDownloadGo (initial : List String) (listing : Nat → List String)
    (obsFor : Nat → String → Nat → Option Nat) : Nat → Nat → Option String
  | _, 0 => none
  | t, fuel+1 =>
    match pollScan initial (obsFor t) (listing t) with
    | some f => some f
    | none => waitDownloadGo initial listing obsFor (t+1) fuel

/-- `wait_for_download_completion`: `maxPolls` is the number of poll
iterations the timeout allows; `none` models raising `TimeoutException`. -/
def wait_for_download_completion (initial : List String) (listing : Nat → List String)
    (obsFor : Nat → String → Nat → Option Nat) (maxPolls : Nat) : Option String :=
  waitDownloadGo initial listing obsFor 0 maxPolls

/-- A file whose observed size strictly grows on every sample: no two
consecutive samples ever agree. -/
def c4GrowingObs : Nat → Option Nat := fun k => some (k+1)

/-- Claim C4 counterexample: with a single new file `data.xls` whose size
grows on every sample, no two consecutive size samples ever agree, yet the
detector returns the path after the fixed sample count because the file
still exists (the fallback return at scraper.py lines 266-268).  This
refutes "it never returns before write-completion stability is observed". -/
theorem wait_download_returns_without_stability :
    wait_for_download_completion [] (fun _ => ["data.xls"]) (fun _ _ => c4GrowingObs) 1
      = some "data.xls"
    ∧ checkCandidate c4GrowingObs = CheckResult.fallbackReturn
    ∧ (∀ k, c4GrowingObs k ≠ c4GrowingObs (k+1)) := by
  refine ⟨by decide, by decide, ?_⟩
  intro k h
  simp only [c4GrowingObs, Option.some.injEq] at h
  omega

theorem sampleGo_stable_consecutive (obs : Nat → Option Nat) :
    ∀ (rem k : Nat) (cur : Int),
      (cur = -1 ∨ ∃ s0, 0 < k ∧ obs (k-1) = some s0 ∧ cur = (s0 : Int)) →
      sampleGo obs cur k rem = CheckResult.stableReturn →
      ∃ j s, obs j = some s ∧ obs (j+1) = some s ∧ 0 < s := by
  intro rem
  induction rem with
  | zero =>
    intro k cur hinv h
    rw [sampleGo] at h
    split at h
    · exact CheckResult.noConfusion h
    · exact CheckResult.noConfusion h
  | succ rem ih =>
    intro k cur hinv h
    rw [sampleGo] at h
    split at h
    · -- obs k = none: post-break existence check, never a stable return
      split at h
      · exact CheckResult.noConfusion h
      · exact CheckResult.noConfusion h
    · -- obs k = some s
      rename_i s hobs
      split at h
      · rename_i hc
        rcases hinv with hcur | ⟨s0, hk, hprev, hcur⟩
        · rw [hcur] at hc
          exact absurd hc.1 (by omega)
        · refine ⟨k-1, s, ?_, ?_, hc.2⟩
          · have h2 := hc.1
            rw [hcur] at h2
            have hs0 : s0 = s := by exact_mod_cast h2
            rw [← hs0]
            exact hprev
          · have hk1 : k - 1 + 1 = k := Nat.succ_pred_eq_of_pos hk
            rw [hk1]
            exact hobs
      · exact ih (k+1) (s : Int) (Or.inr ⟨s, Nat.succ_pos k, by simpa using hobs, rfl⟩) h

theorem sampleGo_fallback_exists (obs : Nat → Option Nat) :
    ∀ (rem k : Nat) (cur : Int),
      sampleGo obs cur k rem = CheckResult.fallbackReturn →
      ∃ j, j ≤ k + rem ∧ (obs j).isSome = true := by
  intro rem
  induction rem with
  | zero =>
    intro k cur h
    rw [sampleGo] at h
    split at h
    · rename_i hk
      exact ⟨k, Nat.le_add_right k 0, hk⟩
    · exact CheckResult.noConfusion h
  | succ rem ih =>
    intro k cur h
    rw [sampleGo] at h
    split at h
    · -- obs k = none
      split at h
      · rename_i hk1
        exact ⟨k+1, by omega, hk1⟩
      · exact CheckResult.noConfusion h
    · -- obs k = some s
      rename_i s hobs
      split at h
      · exact ⟨k, by omega, by simp [hobs]⟩
      · obtain ⟨j, hj, hsome⟩ := ih (k+1) (s : Int) h
        exact ⟨j, by omega, hsome⟩

theorem pollScan_some (initial : List String) (obsFor : String → Nat → Option Nat) :
    ∀ (files : List String) (f : String), pollScan initial obsFor files = some f →
      f ∈ files ∧ initial.contains f = false ∧ inProgressName f = false
      ∧ checkCandidate (obsFor f) ≠ CheckResult.noReturn := by
  intro files
  induction files with
  | nil => intro f h; exact Option.noConfusion h
  | cons g rest ih =>
    intro f h
    rw [pollScan] at h
    by_cases h1 : initial.contains g
    · rw [if_pos h1] at h
      obtain ⟨hmem, h2, h3, h4⟩ := ih f h
      exact ⟨List.mem_cons_of_mem g hmem, h2, h3, h4⟩
    · rw [if_neg h1] at h
      by_cases h2 : inProgressName g
      · rw [if_pos h2] at h
        obtain ⟨hmem, h3, h4, h5⟩ := ih f h
        exact ⟨List.mem_cons_of_mem g hmem, h3, h4, h5⟩
      · rw [if_neg h2] at h
        cases hc : checkCandidate (obsFor g) with
        | noReturn =>
          rw [hc] at h
          obtain ⟨hmem, h3, h4, h5⟩ := ih f h
          exact ⟨List.mem_cons_of_mem g hmem, h3, h4, h5⟩
        | stableReturn =>
          rw [hc] at h
          have h6 : some g = some f := h
          have hf : g = f := Option.some.inj h6
          subst hf
          exact ⟨List.mem_cons_self g rest, by simpa using h1, by simpa using h2, by simp [hc]⟩
        | fallbackReturn =>
          rw [hc] at h
          have h6 : some g = some f := h
          have hf : g = f := Option.some.inj h6
          subst hf
          exact ⟨List.mem_cons_self g rest, by simpa using h1, by simpa using h2, by simp [hc]⟩

theorem waitDownloadGo_some (initial : List String) (listing : Nat → List String)
    (obsFor : Nat → String → Nat → Option Nat) :
    ∀ (fuel t0 : Nat) (f : String),
      waitDownloadGo initial listing obsFor t0 fuel = some f →
      ∃ t, t0 ≤ t ∧ t < t0 + fuel ∧ pollScan initial (obsFor t) (listing t) = some f := by
  intro fuel
  induction fuel with
  | zero => intro t0 f h; exact Option.noConfusion h
  | succ fuel ih =>
    intro t0 f h
    rw [waitDownloadGo] at h
    cases hp : pollScan initial (obsFor t0) (listing t0) with
    | some g =>
      rw [hp] at h
      have h6 : some g = some f := h
      have hgf : g = f := Option.some.inj h6
      subst hgf
      exact ⟨t0, Nat.le_refl t0, by omega, hp⟩
    | none =>
      rw [hp] at h
      obtain ⟨t, ht0, htlt, hpoll⟩ := ih (t0+1) f h
      exact ⟨t, by omega, by omega, hpoll⟩

/-- Claim C4 (amended): the detector returns a path only for a file that is
new relative to the baseline and whose name carries no in-progress suffix
(`.tmp`, `.crdownload`, `.part`); its size check returns early exactly when
two consecutive size samples agree and are nonzero, but when no stability is
observed within the five samples it still returns the path provided the file
exists at the final check (and abandons only candidates that have
disappeared).  So an in-progress name is never returned, but a return
without observed write-completion stability is possible. -/
theorem wait_download_amended (initial : List String) (listing : Nat → List String)
    (obsFor : Nat → String → Nat → Option Nat) (maxPolls : Nat) (f : String) :
    (wait_for_download_completion initial listing obsFor maxPolls = some f →
      initial.contains f = false ∧ inProgressName f = false ∧
      ∃ t, t < maxPolls ∧ f ∈ listing t ∧
        checkCandidate (obsFor t f) ≠ CheckResult.noReturn)
    ∧ (∀ obs : Nat → Option Nat, checkCandidate obs = CheckResult.stableReturn →
        ∃ j s, obs j = some s ∧ obs (j+1) = some s ∧ 0 < s)
    ∧ (∀ obs : Nat → Option Nat, checkCandidate obs = CheckResult.fallbackReturn →
        ∃ j, j ≤ 5 ∧ (obs j).isSome = true) := by
  refine ⟨?_, ?_, ?_⟩
  · intro h
    obtain ⟨t, -, htlt, hpoll⟩ := waitDownloadGo_some initial listing obsFor maxPolls 0 f h
    obtain ⟨hmem, h1, h2, h3⟩ := pollScan_some initial (obsFor t) (listing t) f hpoll
    exact ⟨h1, h2, t, by omega, hmem, h3⟩
  · intro obs h
    exact sampleGo_stable_consecutive obs 5 0 (-1) (Or.inl rfl) h
  · intro obs h
    obtain ⟨j, hj, hsome⟩ := sampleGo_fallback_exists obs 5 0 (-1) h
    exact ⟨j, by omega, hsome⟩

/-- Witness for C4 (amended): a new file `a.xls` with constant nonzero size
is returned, is not in the baseline, has no in-progress suffix, and its
check was not a non-return. -/
theorem wait_download_amended_witness :
    ([] : List String).contains "a.xls" = false ∧ inProgressName "a.xls" = false ∧
    ∃ t, t < 1 ∧ "a.xls" ∈ (fun _ : Nat => ["a.xls"]) t ∧
      checkCandidate ((fun _ _ _ => some 7) t "a.xls") ≠ CheckResult.noReturn :=
  (wait_download_amended [] (fun _ => ["a.xls"]) (fun _ _ _ => some 7) 1 "a.xls").1 (by decide)
/-! ### C5, C6 — `KOFIAScraper._select_from_custom_dropdown` (scraper.py lines 273-632)

The `for retry in range(max_retries)` loop (default `max_retries=3`) drives
one dropdown interaction per retry.  Relevant structure of one retry `r`
with current displayed value `d`:
- skip optimization (lines 305-322): read the currently displayed value
  (`readOk r` = the read does not raise); if it equals the target, `return
  True` without opening;
- otherwise open the dropdown, search and click the option.  Any exception
  in the body is caught at line 614: if retries remain the loop continues,
  else the exception is re-raised (line 630) — modelled by
  `DdAttemptEnv.raiseE`;
- a completed selection leaves the widget displaying `nd`
  (`DdAttemptEnv.selectGiving nd`) and performs one open cycle plus one
  option click;
- verification (lines 598-612): re-read the displayed value (`verifyOk r` =
  the read does not raise).  On match, `return True`.  On mismatch, `if
  retry < max_retries - 1: continue` — but on the FINAL retry control falls
  through to `return True` (line 612).  A failed verification read also
  falls through to `return True`.
The model keeps the widget's displayed value as explicit state and records
the open/select events of completed selection interactions. -/

inductive DdEvent where
  | openCycle
  | selectClick
deriving DecidableEq, Repr

inductive DdAttemptEnv where
  | raiseE
  | selectGiving (nd : String)
deriving DecidableEq, Repr

inductive DdResult where
  | ok (b : Bool)
  | raised
deriving DecidableEq, Repr

structure DdOutcome where
  result : DdResult
  events : List DdEvent
  displayed : String
deriving DecidableEq, Repr

/-- The retry loop of `_select_from_custom_dropdown`: `d` is the currently
displayed value, `r` the retry index, the fuel is `m - r`.  The `fuel = 0`
base is the unreachable `return False` of line 632 (the final iteration
never executes `continue`). -/
def ddGo (target : String) (readOk verifyOk : Nat → Bool) (env : Nat → DdAttemptEnv) (m : Nat) :
    String → Nat → Nat → DdOutcome
  | d, _, 0 => ⟨DdResult.ok false, [], d⟩
  | d, r, fuel+1 =>
    if readOk r && (d == target) then ⟨DdResult.ok true, [], d⟩
    else
      match env r with
      | DdAttemptEnv.raiseE =>
        if r < m - 1 then
          ddGo target readOk verifyOk env m d (r+1) fuel
        else ⟨DdResult.raised, [], d⟩
      | DdAttemptEnv.selectGiving nd =>
        if verifyOk r then
          if nd == target then
            ⟨DdResult.ok true, [DdEvent.openCycle, DdEvent.selectClick], nd⟩
          else if r < m - 1 then
            ⟨(ddGo target readOk verifyOk env m nd (r+1) fuel).result,
             DdEvent.openCycle :: DdEvent.selectClick ::
               (ddGo target readOk verifyOk env m nd (r+1) fuel).events,
             (ddGo target readOk verifyOk env m nd (r+1) fuel).displayed⟩
          else ⟨DdResult.ok true, [DdEvent.openCycle, DdEvent.selectClick], nd⟩
        else ⟨DdResult.ok true, [DdEvent.openCycle, DdEvent.selectClick], nd⟩

def select_from_custom_dropdown (target : String) (readOk verifyOk : Nat → Bool)
    (env : Nat → DdAttemptEnv) (m : Nat) (d : String) : DdOutcome :=
  ddGo target readOk verifyOk env m d 0 m

/-- Claim C5 counterexample: every selection lands on value `B ≠ A` and
every verification read succeeds, so on the final retry the re-read value
still differs from the target — yet the operation returns success
(`True`), refuting "otherwise returns failure (it does not report success
for an unverified selection on the final retry)". -/
theorem select_dropdown_success_despite_unverified :
    (select_from_custom_dropdown "A" (fun _ => true) (fun _ => true)
        (fun _ => DdAttemptEnv.selectGiving "B") 3 "").result = DdResult.ok true
    ∧ (select_from_custom_dropdown "A" (fun _ => true) (fun _ => true)
        (fun _ => DdAttemptEnv.selectGiving "B") 3 "").displayed = "B"
    ∧ ("B" : String) ≠ "A" := by
  refine ⟨by decide, by decide, by decide⟩

theorem ddGo_mismatch_all (target : String) (readOk verifyOk : Nat → Bool)
    (env : Nat → DdAttemptEnv) (m : Nat)
    (hall : ∀ r, r < m → ∃ nd, env r = DdAttemptEnv.selectGiving nd ∧ nd ≠ target)
    (hver : ∀ r, r < m → verifyOk r = true) :
    ∀ (fuel r : Nat) (d : String), r + (fuel+1) = m → d ≠ target →
      (ddGo target readOk verifyOk env m d r (fuel+1)).result = DdResult.ok true
      ∧ (ddGo target readOk verifyOk env m d r (fuel+1)).events.count DdEvent.openCycle = fuel+1
      ∧ (ddGo target readOk verifyOk env m d r (fuel+1)).displayed ≠ target := by
  intro fuel
  induction fuel with
  | zero =>
    intro r d hrm hd
    obtain ⟨nd, henv, hnd⟩ := hall r (by omega)
    have hbeq : (d == target) = false := beq_eq_false_iff_ne.mpr hd
    have hv : verifyOk r = true := hver r (by omega)
    have hbnd : (nd == target) = false := beq_eq_false_iff_ne.mpr hnd
    have hr : ¬ (r < m - 1) := by omega
    rw [ddGo]
    simp [hbeq, henv, hv, hbnd, hr, hnd, List.count_cons]
  | succ f ih =>
    intro r d hrm hd
    obtain ⟨nd, henv, hnd⟩ := hall r (by omega)
    have hbeq : (d == target) = false := beq_eq_false_iff_ne.mpr hd
    have hv : verifyOk r = true := hver r (by omega)
    have hbnd : (nd == target) = false := beq_eq_false_iff_ne.mpr hnd
    have hr : r < m - 1 := by omega
    have hrec := ih (r+1) nd (by omega) hnd
    rw [ddGo]
    simp only [hbeq, Bool.and_false, Bool.false_eq_true, if_false, henv, hv, if_true, hbnd,
      if_pos hr]
    refine ⟨hrec.1, ?_, hrec.2.2⟩
    rw [List.count_cons, List.count_cons, hrec.2.1]
    simp

/-- Claim C5 (amended): when the re-read displayed value differs from the
target and retries remain, the whole interaction restarts from the
beginning; but on the final retry an unverified selection is nonetheless
reported as success — when every selection lands on a wrong value and every
verification read succeeds, the operation performs one open cycle per retry
(all `m` retries are consumed by restarts) and then returns `True` with the
displayed value still different from the target; the `return False` path is
not reached. -/
theorem select_dropdown_retry_verification (target d : String) (readOk verifyOk : Nat → Bool)
    (env : Nat → DdAttemptEnv) (m : Nat) (hm : 1 ≤ m) (hd : d ≠ target)
    (hall : ∀ r, r < m → ∃ nd, env r = DdAttemptEnv.selectGiving nd ∧ nd ≠ target)
    (hver : ∀ r, r < m → verifyOk r = true) :
    (select_from_custom_dropdown target readOk verifyOk env m d).result = DdResult.ok true
    ∧ (select_from_custom_dropdown target readOk verifyOk env m d).events.count
        DdEvent.openCycle = m
    ∧ (select_from_custom_dropdown target readOk verifyOk env m d).displayed ≠ target := by
  have h := ddGo_mismatch_all target readOk verifyOk env m hall hver (m-1) 0 d (by omega) hd
  have hm1 : m - 1 + 1 = m := by omega
  rw [hm1] at h
  exact h

/-- Witness for C5 (amended): a dropdown whose selection always lands on
`C ≠ A` returns success after consuming both retries. -/
theorem select_dropdown_retry_verification_witness :
    (select_from_custom_dropdown "A" (fun _ => true) (fun _ => true)
        (fun _ => DdAttemptEnv.selectGiving "C") 2 "X").result = DdResult.ok true
    ∧ (select_from_custom_dropdown "A" (fun _ => true) (fun _ => true)
        (fun _ => DdAttemptEnv.selectGiving "C") 2 "X").events.count DdEvent.openCycle = 2
    ∧ (select_from_custom_dropdown "A" (fun _ => true) (fun _ => true)
        (fun _ => DdAttemptEnv.selectGiving "C") 2 "X").displayed ≠ "A" :=
  select_dropdown_retry_verification "A" "X" (fun _ => true) (fun _ => true)
    (fun _ => DdAttemptEnv.selectGiving "C") 2 (by decide) (by decide)
    (fun r hr => ⟨"C", rfl, by decide⟩) (fun r hr => rfl)

/-- Claim C6: the synthetic-dropdown selection is idempotent.  A first call
that selects and verifies the target leaves the widget displaying the
target; a second call with the same target then takes the skip optimization:
it returns success immediately, performs no open/close cycle (its event list
is empty), and leaves the displayed value unchanged. -/
theorem select_dropdown_idempotent (target d : String)
    (readOk verifyOk readOk2 verifyOk2 : Nat → Bool)
    (env env2 : Nat → DdAttemptEnv) (m m2 : Nat)
    (hm : 1 ≤ m) (hm2 : 1 ≤ m2)
    (h1 : env 0 = DdAttemptEnv.selectGiving target) (h2 : verifyOk 0 = true)
    (h3 : readOk2 0 = true) :
    (select_from_custom_dropdown target readOk verifyOk env m d).displayed = target
    ∧ select_from_custom_dropdown target readOk2 verifyOk2 env2 m2
        ((select_from_custom_dropdown target readOk verifyOk env m d).displayed)
      = ⟨DdResult.ok true, [], target⟩ := by
  obtain ⟨k, rfl⟩ : ∃ k, m = k+1 := ⟨m-1, by omega⟩
  have hfirst : (select_from_custom_dropdown target readOk verifyOk env (k+1) d).displayed
      = target := by
    show (ddGo target readOk verifyOk env (k+1) d 0 (k+1)).displayed = target
    rw [ddGo]
    by_cases hskip : (readOk 0 && (d == target)) = true
    · rw [if_pos hskip]
      exact eq_of_beq (Bool.and_elim_right hskip)
    · rw [if_neg hskip, h1]
      simp [h2]
  refine ⟨hfirst, ?_⟩
  rw [hfirst]
  obtain ⟨k2, rfl⟩ : ∃ k2, m2 = k2+1 := ⟨m2-1, by omega⟩
  show ddGo target readOk2 verifyOk2 env2 (k2+1) target 0 (k2+1) = _
  rw [ddGo]
  simp [h3]

/-- Witness for C6: a successful first selection of `T` followed by a second
call with the same target — the second call is an immediate success with no
events and an unchanged displayed value. -/
theorem select_dropdown_idempotent_witness :
    (select_from_custom_dropdown "T" (fun _ => true) (fun _ => true)
        (fun _ => DdAttemptEnv.selectGiving "T") 3 "X").displayed = "T"
    ∧ select_from_custom_dropdown "T" (fun _ => true) (fun _ => true)
        (fun _ => DdAttemptEnv.selectGiving "T") 3
        ((select_from_custom_dropdown "T" (fun _ => true) (fun _ => true)
          (fun _ => DdAttemptEnv.selectGiving "T") 3 "X").displayed)
      = ⟨DdResult.ok true, [], "T"⟩ :=
  select_dropdown_idempotent "T" "X" (fun _ => true) (fun _ => true) (fun _ => true)
    (fun _ => true) (fun _ => DdAttemptEnv.selectGiving "T")
    (fun _ => DdAttemptEnv.selectGiving "T") 3 3 (by decide) (by decide) rfl rfl rfl
/-! ### C7 — radio-group candidate filtering in `download_dataset`

Three radio selections in the per-dataset form-filling sequence scan the
list of radio `<span>`s carrying the wanted `aria-label`:
- region 투자지역구분 (scraper.py lines 1078-1116): skips candidates with
  `not radio.is_displayed()`, accepts a visible candidate whose radiogroup
  siblings contain at least two region terms; fallback: the first VISIBLE
  candidate.  `is_enabled()` is never checked here.
- public/private 공모/사모구분 (lines 1232-1254): accepts a candidate whose
  siblings contain 공모 or 사모 AND which `is_displayed() and is_enabled()`.
- periodicity 월간/년간 (lines 1322-1350): accepts a candidate whose
  siblings contain 년간 or 분기 with NO visibility or enabled check at all;
  fallback: `monthly_radios[0]`, again without any check.
A candidate is a radio element with its visibility, enabled state, and the
`aria-label`s of its radiogroup siblings. -/

structure RadioCandidate where
  visible : Bool
  enabled : Bool
  siblings : List String
deriving DecidableEq, Repr

def regionTerms : List String := ["전체", "국내", "해외", "해외30", "해외60"]

/-- Region scan loop (scraper.py lines 1085-1107). -/
def regionScan : List RadioCandidate → Option RadioCandidate
  | [] => none
  | r :: rest =>
    if r.visible = false then regionScan rest
    else if (regionTerms.any (fun t => r.siblings.contains t))
        ∧ 2 ≤ (r.siblings.filter (fun s => regionTerms.contains s)).length then some r
    else regionScan rest

/-- Region selection with its first-visible fallback (lines 1109-1116);
`none` models the raise when no visible candidate exists. -/
def regionSelect (radios : List RadioCandidate) : Option RadioCandidate :=
  match regionScan radios with
  | some r => some r
  | none => (radios.filter (fun r => r.visible)).head?

/-- Public/private scan loop (scraper.py lines 1235-1254); `none` models the
raise at line 1311. -/
def pubPrivSelect : List RadioCandidate → Option RadioCandidate
  | [] => none
  | r :: rest =>
    if r.siblings.contains "공모" || r.siblings.contains "사모" then
      if r.visible && r.enabled then some r else pubPrivSelect rest
    else pubPrivSelect rest

/-- Periodicity scan loop (scraper.py lines 1331-1345). -/
def monthlyScan : List RadioCandidate → Option RadioCandidate
  | [] => none
  | r :: rest =>
    if r.siblings.contains "년간" || r.siblings.contains "분기" then some r
    else monthlyScan rest

/-- Periodicity selection with its `monthly_radios[0]` fallback (lines
1347-1350); `none` models the raise when the candidate list is empty. -/
def monthlySelect (radios : List RadioCandidate) : Option RadioCandidate :=
  match monthlyScan radios with
  | some r => some r
  | none => radios.head?

/-- Claim C7 counterexample: the periodicity (월간) selection applies no
visibility or enabled filter: given a hidden, disabled duplicate listed
before an identical visible control, it picks the hidden one; and the region
selection accepts a visible but DISABLED control.  This refutes "only
candidate controls that are currently visible and enabled are considered …
hidden duplicate controls are always excluded" for the periodicity and
region groups. -/
theorem radio_selection_includes_hidden :
    monthlySelect [⟨false, false, ["월간", "년간"]⟩, ⟨true, true, ["월간", "년간"]⟩]
      = some ⟨false, false, ["월간", "년간"]⟩
    ∧ regionSelect [⟨true, false, ["전체", "국내"]⟩]
      = some ⟨true, false, ["전체", "국내"]⟩ := by
  refine ⟨by decide, by decide⟩

theorem pubPrivSelect_visible_enabled :
    ∀ (radios : List RadioCandidate) (r : RadioCandidate),
      pubPrivSelect radios = some r → r.visible = true ∧ r.enabled = true := by
  intro radios
  induction radios with
  | nil => intro r h; exact Option.noConfusion h
  | cons g rest ih =>
    intro r h
    rw [pubPrivSelect] at h
    split at h
    · split at h
      · rename_i hve
        have hgr : g = r := Option.some.inj h
        subst hgr
        exact ⟨(Bool.and_eq_true _ _ |>.mp hve).1, (Bool.and_eq_true _ _ |>.mp hve).2⟩
      · exact ih r h
    · exact ih r h

theorem regionScan_visible :
    ∀ (radios : List RadioCandidate) (r : RadioCandidate),
      regionScan radios = some r → r.visible = true := by
  intro radios
  induction radios with
  | nil => intro r h; exact Option.noConfusion h
  | cons g rest ih =>
    intro r h
    rw [regionScan] at h
    split at h
    · exact ih r h
    · rename_i hvis
      split at h
      · have hgr : g = r := Option.some.inj h
        subst hgr
        cases hv : g.visible with
        | true => rfl
        | false => exact absurd hv hvis
      · exact ih r h

theorem regionSelect_visible (radios : List RadioCandidate) (r : RadioCandidate)
    (h : regionSelect radios = some r) : r.visible = true := by
  rw [regionSelect] at h
  cases hs : regionScan radios with
  | some g =>
    rw [hs] at h
    have hgr : g = r := Option.some.inj h
    rw [← hgr]
    exact regionScan_visible radios g hs
  | none =>
    rw [hs] at h
    have hmem : r ∈ radios.filter (fun c => c.visible) := by
      cases hl : radios.filter (fun c => c.visible) with
      | nil => rw [hl] at h; exact Option.noConfusion h
      | cons x xs =>
        rw [hl] at h
        have hxr : x = r := Option.some.inj h
        rw [← hxr]
        exact List.mem_cons_self x xs
    exact (List.mem_filter.mp hmem).2

/-- Claim C7 (amended): only the public/private scope selection restricts
its candidates to controls that are both visible and enabled; the region
selection restricts to visible controls but never checks the enabled state;
and the periodicity selection applies no visibility or enabled filter at
all, so a hidden duplicate with matching sibling labels can be chosen
there. -/
theorem radio_selection_filters (radios : List RadioCandidate) (r : RadioCandidate) :
    (pubPrivSelect radios = some r → r.visible = true ∧ r.enabled = true)
    ∧ (regionSelect radios = some r → r.visible = true) := by
  exact ⟨pubPrivSelect_visible_enabled radios r, regionSelect_visible radios r⟩

/-- Witness for C7 (amended): a concrete public/private candidate list whose
selected control is indeed visible and enabled. -/
theorem radio_selection_filters_witness :
    (⟨true, true, ["전체", "공모", "사모"]⟩ : RadioCandidate).visible = true
    ∧ (⟨true, true, ["전체", "공모", "사모"]⟩ : RadioCandidate).enabled = true :=
  (radio_selection_filters
    [⟨false, true, ["전체", "공모", "사모"]⟩, ⟨true, true, ["전체", "공모", "사모"]⟩]
    ⟨true, true, ["전체", "공모", "사모"]⟩).1 (by decide)
/-! ### C8 — `run_parallel` retry pass and final tally (scraper.py lines 2012-2163)

After the three batch futures complete, `all_results` holds one
`(success, name)` pair per dataset.  When failures exist (line 2081) the
failed names are collected in order (lines 2087-2095, looking each name up
in `DATASET_CONFIGS`), and when at least one scraper survived
(`active_scrapers`, populated at lines 2058-2062 with sessions that
finished without fatal error) the FIRST surviving session
(`list(active_scrapers.keys())[0]`, line 2099) re-runs `download_dataset`
for every failed config (lines 2109-2119).  The final tally (lines
2132-2133) is `final_success = success_count + retry_success_count` and
`final_failure = len(DATASET_CONFIGS) - final_success`; the still-failed
list (lines 2142-2146) collects the retry failures.  Datasets are
identified by their unique `name`; `retryOutcome n` is whether the retry of
dataset `n` succeeds.  `ParallelOutcome` fields: retried names, the session
id used for the retry, final success and failure counts, still-failed
names. -/

structure ParallelOutcome where
  retried : List String
  retrySession : Option Nat
  finalSuccess : Nat
  finalFailure : Nat
  stillFailed : List String
deriving DecidableEq, Repr

/-- scraper.py lines 2087-2090: names of first-pass failures, in order. -/
def failedNamesOf (firstPass : List (Bool × String)) : List String :=
  (firstPass.filter (fun p => !p.1)).map (fun p => p.2)

/-- scraper.py lines 2091-2095: look each failed name up in the config
collection (first config with a matching name). -/
def failedCfgsOf (configs : List String) (firstPass : List (Bool × String)) : List String :=
  (failedNamesOf firstPass).filterMap (fun n => configs.find? (fun c => c == n))

def run_parallel_retry (configs : List String) (firstPass : List (Bool × String))
    (active : List Nat) (retryOutcome : String → Bool) : ParallelOutcome :=
  if failedNamesOf firstPass ≠ [] then
    if failedCfgsOf configs firstPass ≠ [] ∧ active ≠ [] then
      ⟨failedCfgsOf configs firstPass,
       active.head?,
       (firstPass.filter (fun p => p.1)).length
         + (((failedCfgsOf configs firstPass).map (fun n => (retryOutcome n, n))).filter
             (fun p => p.1)).length,
       configs.length - ((firstPass.filter (fun p => p.1)).length
         + (((failedCfgsOf configs firstPass).map (fun n => (retryOutcome n, n))).filter
             (fun p => p.1)).length),
       (((failedCfgsOf configs firstPass).map (fun n => (retryOutcome n, n))).filter
           (fun p => !p.1)).map (fun p => p.2)⟩
    else
      ⟨[], none, (firstPass.filter (fun p => p.1)).length,
       configs.length - (firstPass.filter (fun p => p.1)).length,
       failedNamesOf firstPass⟩
  else
    ⟨[], none, (firstPass.filter (fun p => p.1)).length,
     configs.length - (firstPass.filter (fun p => p.1)).length,
     []⟩

theorem find_self_of_mem (configs : List String) (n : String) (hmem : n ∈ configs) :
    configs.find? (fun c => c == n) = some n := by
  induction configs with
  | nil => exact absurd hmem (List.not_mem_nil n)
  | cons c rest ih =>
    rw [List.find?]
    by_cases hc : c = n
    · subst hc
      simp
    · have hb : (c == n) = false := beq_eq_false_iff_ne.mpr hc
      rw [hb]
      rcases List.mem_cons.mp hmem with hcn | hrest
      · exact absurd hcn.symm hc
      · exact ih hrest

theorem filterMap_find_self (configs : List String) :
    ∀ (names : List String), (∀ n, n ∈ names → n ∈ configs) →
      names.filterMap (fun n => configs.find? (fun c => c == n)) = names := by
  intro names
  induction names with
  | nil => intro _; rfl
  | cons n rest ih =>
    intro hall
    rw [List.filterMap_cons]
    rw [find_self_of_mem configs n (hall n (List.mem_cons_self n rest))]
    rw [ih (fun x hx => hall x (List.mem_cons_of_mem n hx))]

theorem length_filter_partition {α : Type} (f : α → Bool) :
    ∀ (l : List α), (l.filter f).length + (l.filter (fun x => !f x)).length = l.length := by
  intro l
  induction l with
  | nil => rfl
  | cons x rest ih =>
    cases hx : f x with
    | true =>
      simp [List.filter_cons, hx]
      omega
    | false =>
      simp [List.filter_cons, hx]
      omega

theorem length_filter_partition_pair :
    ∀ (l : List (Bool × String)),
      (l.filter (fun p => p.1)).length + (l.filter (fun p => !p.1)).length = l.length := by
  intro l
  induction l with
  | nil => rfl
  | cons x rest ih =>
    cases hx : x.1 with
    | true =>
      simp [List.filter_cons, hx]
      omega
    | false =>
      simp [List.filter_cons, hx]
      omega

theorem retry_success_count (retryOutcome : String → Bool) :
    ∀ (names : List String),
      ((names.map (fun n => (retryOutcome n, n))).filter (fun p => p.1)).length
        = (names.filter retryOutcome).length := by
  intro names
  induction names with
  | nil => rfl
  | cons n rest ih =>
    rw [List.map_cons, List.filter_cons, List.filter_cons]
    cases hq : retryOutcome n with
    | true => simp [hq, ih]
    | false => simp [hq, ih]

theorem stillFailed_eq (retryOutcome : String → Bool) :
    ∀ (names : List String),
      ((names.map (fun n => (retryOutcome n, n))).filter (fun p => !p.1)).map (fun p => p.2)
        = names.filter (fun n => !retryOutcome n) := by
  intro names
  induction names with
  | nil => rfl
  | cons n rest ih =>
    rw [List.map_cons, List.filter_cons, List.filter_cons]
    cases hq : retryOutcome n with
    | true => simp [hq, ih]
    | false => simp [hq, ih]

/-- Claim C8: in parallel mode, when at least one session finished without
fatal error and the first pass produced one result per dataset, every
dataset that failed its first pass is re-attempted (in order) on the first
surviving session — a session drawn from those that finished without fatal
error — and the final tally merges the two passes: the finally-failed count
equals the number of re-attempted datasets that failed again, and the
still-failed list is exactly the datasets that failed in both passes. -/
theorem run_parallel_retry_merges (configs : List String) (firstPass : List (Bool × String))
    (active : List Nat) (retryOutcome : String → Bool)
    (hnames : firstPass.map (fun p => p.2) = configs)
    (hactive : active ≠ [])
    (hfail : firstPass.filter (fun p => !p.1) ≠ []) :
    (run_parallel_retry configs firstPass active retryOutcome).retried
        = failedNamesOf firstPass
    ∧ (∃ s, (run_parallel_retry configs firstPass active retryOutcome).retrySession = some s
        ∧ s ∈ active)
    ∧ (run_parallel_retry configs firstPass active retryOutcome).finalFailure
        = ((failedNamesOf firstPass).filter (fun n => !retryOutcome n)).length
    ∧ (run_parallel_retry configs firstPass active retryOutcome).stillFailed
        = (failedNamesOf firstPass).filter (fun n => !retryOutcome n) := by
  have hsub : ∀ n, n ∈ failedNamesOf firstPass → n ∈ configs := by
    intro n hn
    rcases List.mem_map.mp hn with ⟨p, hp, hpn⟩
    rw [← hnames]
    exact List.mem_map.mpr ⟨p, List.mem_of_mem_filter hp, hpn⟩
  have hcfgs : failedCfgsOf configs firstPass = failedNamesOf firstPass :=
    filterMap_find_self configs _ hsub
  have hfail2 : failedNamesOf firstPass ≠ [] := by
    intro hcontra
    exact hfail (List.map_eq_nil_iff.mp hcontra)
  have hcfg2 : failedCfgsOf configs firstPass ≠ [] := by
    rw [hcfgs]
    exact hfail2
  rw [run_parallel_retry, if_pos hfail2, if_pos (And.intro hcfg2 hactive), hcfgs]
  refine ⟨rfl, ?_, ?_, ?_⟩
  · cases active with
    | nil => exact absurd rfl hactive
    | cons s rest => exact ⟨s, rfl, List.mem_cons_self s rest⟩
  · show configs.length - ((firstPass.filter (fun p => p.1)).length
        + (((failedNamesOf firstPass).map (fun n => (retryOutcome n, n))).filter
            (fun p => p.1)).length) = _
    rw [retry_success_count retryOutcome]
    have hlen : configs.length = firstPass.length := by
      rw [← hnames, List.length_map]
    have hpartFirst := length_filter_partition_pair firstPass
    have hpartRetry := length_filter_partition retryOutcome (failedNamesOf firstPass)
    have hlenNames : (failedNamesOf firstPass).length
        = (firstPass.filter (fun p => !p.1)).length := by
      rw [failedNamesOf, List.length_map]
    omega
  · exact stillFailed_eq retryOutcome (failedNamesOf firstPass)

/-- Witness for C8: two datasets, `Bond` fails its first pass and succeeds
on retry using surviving session 2 — the final tally records zero
finally-failed datasets. -/
theorem run_parallel_retry_merges_witness :
    (run_parallel_retry ["Equity", "Bond"] [(true, "Equity"), (false, "Bond")] [2]
        (fun _ => true)).retried
      = failedNamesOf [(true, "Equity"), (false, "Bond")]
    ∧ (∃ s, (run_parallel_retry ["Equity", "Bond"] [(true, "Equity"), (false, "Bond")] [2]
        (fun _ => true)).retrySession = some s ∧ s ∈ [2])
    ∧ (run_parallel_retry ["Equity", "Bond"] [(true, "Equity"), (false, "Bond")] [2]
        (fun _ => true)).finalFailure
      = ((failedNamesOf [(true, "Equity"), (false, "Bond")]).filter
          (fun n => !(fun _ : String => true) n)).length
    ∧ (run_parallel_retry ["Equity", "Bond"] [(true, "Equity"), (false, "Bond")] [2]
        (fun _ => true)).stillFailed
      = (failedNamesOf [(true, "Equity"), (false, "Bond")]).filter
          (fun n => !(fun _ : String => true) n) :=
  run_parallel_retry_merges ["Equity", "Bond"] [(true, "Equity"), (false, "Bond")] [2]
    (fun _ => true) (by decide) (by decide) (by decide)
/-! ### C9 — strict sequencing of dataset acquisitions in one session

`KOFIAScraper.run` (scraper.py lines 1878-1893) iterates `DATASET_CONFIGS`
in a plain Python `for` loop, calling `download_dataset(config)` and only
moving to the next config after that call returns; `download_dataset` itself
(lines 1378-1740) triggers the search click, waits for the download and
renames the file before returning on success.  The trace semantics below
records, per attempt of each dataset, the search click, the download
detection and the rename; one attempt of the body either completes all
three (`completes`), raises before the search (`failsBeforeSearch` for a
Selenium-class error, `failsOther` for the break-inducing kind), or raises
after the search but before the file is detected (`failsAfterSearch`). -/

inductive SEv where
  | searchClicked (ds : String) (attempt : Nat)
  | fileDetected (ds : String) (attempt : Nat)
  | renamed (ds : String) (attempt : Nat)
deriving DecidableEq, Repr

inductive StepOutcome where
  | completes
  | failsBeforeSearch
  | failsAfterSearch
  | failsOther
deriving DecidableEq, Repr

/-- Event trace of the `download_dataset` attempt loop (same control flow as
`downloadDatasetGo`), paired with the success flag. -/
def datasetTraceGo (ds : String) (env : Nat → StepOutcome) : Nat → Nat → List SEv × Bool
  | _, 0 => ([], false)
  | a, fuel+1 =>
    match env a with
    | StepOutcome.completes =>
      ([SEv.searchClicked ds a, SEv.fileDetected ds a, SEv.renamed ds a], true)
    | StepOutcome.failsBeforeSearch =>
      datasetTraceGo ds env (a+1) fuel
    | StepOutcome.failsAfterSearch =>
      (SEv.searchClicked ds a :: (datasetTraceGo ds env (a+1) fuel).1,
       (datasetTraceGo ds env (a+1) fuel).2)
    | StepOutcome.failsOther => ([], false)

def download_dataset_trace (ds : String) (env : Nat → StepOutcome) : List SEv × Bool :=
  datasetTraceGo ds env 0 MAX_RETRIES

/-- Event trace of the sequential dataset loop of `run` (scraper.py lines
1878-1893): the traces of the datasets are concatenated in config order. -/
def runTrace (env : String → Nat → StepOutcome) : List String → List SEv
  | [] => []
  | ds :: rest => (download_dataset_trace ds (env ds)).1 ++ runTrace env rest

def evDataset : SEv → String
  | SEv.searchClicked ds _ => ds
  | SEv.fileDetected ds _ => ds
  | SEv.renamed ds _ => ds

theorem datasetTraceGo_dataset (ds : String) (env : Nat → StepOutcome) :
    ∀ (fuel a : Nat) (ev : SEv), ev ∈ (datasetTraceGo ds env a fuel).1 → evDataset ev = ds := by
  intro fuel
  induction fuel with
  | zero => intro a ev h; exact absurd h (List.not_mem_nil ev)
  | succ fuel ih =>
    intro a ev h
    rw [datasetTraceGo] at h
    cases henv : env a with
    | completes =>
      rw [henv] at h
      simp only [List.mem_cons, List.not_mem_nil, or_false] at h
      rcases h with h | h | h
      · rw [h]; rfl
      · rw [h]; rfl
      · rw [h]; rfl
    | failsBeforeSearch =>
      rw [henv] at h
      exact ih (a+1) ev h
    | failsAfterSearch =>
      rw [henv] at h
      rcases List.mem_cons.mp h with h | h
      · rw [h]; rfl
      · exact ih (a+1) ev h
    | failsOther =>
      rw [henv] at h
      exact absurd h (List.not_mem_nil ev)

theorem download_dataset_trace_dataset (ds : String) (env : Nat → StepOutcome) (ev : SEv)
    (h : ev ∈ (download_dataset_trace ds env).1) : evDataset ev = ds :=
  datasetTraceGo_dataset ds env MAX_RETRIES 0 ev h

theorem runTrace_append (env : String → Nat → StepOutcome) :
    ∀ (l1 l2 : List String), runTrace env (l1 ++ l2) = runTrace env l1 ++ runTrace env l2 := by
  intro l1
  induction l1 with
  | nil => intro l2; rfl
  | cons d rest ih =>
    intro l2
    rw [List.cons_append, runTrace, runTrace, ih, List.append_assoc]

theorem runTrace_dataset (env : String → Nat → StepOutcome) :
    ∀ (l : List String) (ev : SEv), ev ∈ runTrace env l → evDataset ev ∈ l := by
  intro l
  induction l with
  | nil => intro ev h; exact absurd h (List.not_mem_nil ev)
  | cons d rest ih =>
    intro ev h
    rw [runTrace] at h
    rcases List.mem_append.mp h with h | h
    · rw [download_dataset_trace_dataset d (env d) ev h]
      exact List.mem_cons_self d rest
    · exact List.mem_cons_of_mem d (ih ev h)

theorem get_append_left_bound {α : Type} (A B : List α) (k : Nat) (ev : α)
    (h : (A ++ B).get? k = some ev) (hnot : ev ∉ B) : k < A.length := by
  by_cases hk : k < A.length
  · exact hk
  · exfalso
    rw [List.get?_append_right (Nat.le_of_not_lt hk)] at h
    exact hnot (List.get?_mem h)

theorem get_append_right_bound {α : Type} (A B : List α) (k : Nat) (ev : α)
    (h : (A ++ B).get? k = some ev) (hnot : ev ∉ A) : A.length ≤ k := by
  by_cases hk : k < A.length
  · exfalso
    rw [List.get?_append hk] at h
    exact hnot (List.get?_mem h)
  · exact Nat.le_of_not_lt hk

/-- Claim C9: within one session the dataset acquisitions are strictly
sequential — in the event trace of the sequential loop, every rename of an
earlier dataset occurs strictly before every search trigger of a later
dataset, so dataset `N+1`'s search is never triggered before dataset `N`'s
downloaded file has been detected and renamed (at most one in-flight
download expectation at a time). -/
theorem run_sequential_ordering (env : String → Nat → StepOutcome) (configs : List String)
    (hnodup : configs.Nodup) (i j : Nat) (di dj : String)
    (hi : configs.get? i = some di) (hj : configs.get? j = some dj) (hij : i < j)
    (k1 k2 a1 a2 : Nat)
    (h1 : (runTrace env configs).get? k1 = some (SEv.renamed di a1))
    (h2 : (runTrace env configs).get? k2 = some (SEv.searchClicked dj a2)) :
    k1 < k2 := by
  have hilen : i < configs.length := by
    by_cases h : i < configs.length
    · exact h
    · rw [List.get?_eq_none.mpr (Nat.le_of_not_lt h)] at hi
      exact absurd hi (by simp)
  have hsplit : configs = configs.take i ++ di :: configs.drop (i+1) := by
    have hdrop : configs.drop i = di :: configs.drop (i+1) := by
      rw [List.drop_eq_getElem_cons hilen]
      have : configs[i] = di := by
        have h3 := List.getElem?_eq_getElem hilen
        rw [← List.get?_eq_getElem?] at h3
        rw [hi] at h3
        exact (Option.some.inj h3).symm
      rw [this]
    rw [← hdrop, List.take_append_drop]
  have hdj_mem : dj ∈ configs.drop (i+1) := by
    have h4 : (configs.drop (i+1)).get? (j - (i+1)) = some dj := by
      rw [List.get?_drop]
      have : i + 1 + (j - (i+1)) = j := by omega
      rw [this]
      exact hj
    exact List.get?_mem h4
  have hnodup2 : (configs.take i ++ di :: configs.drop (i+1)).Nodup := hsplit ▸ hnodup
  have hdi_take : di ∉ configs.take i := by
    intro hmem
    have := List.disjoint_of_nodup_append hnodup2 hmem (List.mem_cons_self di _)
    exact this
  have hdj_take : dj ∉ configs.take i := by
    intro hmem
    have := List.disjoint_of_nodup_append hnodup2 hmem
      (List.mem_cons_of_mem di hdj_mem)
    exact this
  have hdi_drop : di ∉ configs.drop (i+1) := by
    intro hmem
    have h5 : (di :: configs.drop (i+1)).Nodup := (List.nodup_append.mp hnodup2).2.1
    exact (List.nodup_cons.mp h5).1 hmem
  have hdj_ne : dj ≠ di := by
    intro hcontra
    subst hcontra
    exact hdi_drop hdj_mem
  have htrace : runTrace env configs
      = (runTrace env (configs.take i) ++ (download_dataset_trace di (env di)).1)
        ++ runTrace env (configs.drop (i+1)) := by
    conv =>
      lhs
      rw [hsplit]
    rw [runTrace_append, runTrace, ← List.append_assoc]
  rw [htrace] at h1 h2
  have hk1 : k1 < (runTrace env (configs.take i)
      ++ (download_dataset_trace di (env di)).1).length := by
    refine get_append_left_bound _ _ k1 _ h1 ?_
    intro hmem
    have := runTrace_dataset env (configs.drop (i+1)) _ hmem
    exact hdi_drop (by simpa [evDataset] using this)
  have hk2 : (runTrace env (configs.take i)
      ++ (download_dataset_trace di (env di)).1).length ≤ k2 := by
    refine get_append_right_bound _ _ k2 _ h2 ?_
    intro hmem
    rcases List.mem_append.mp hmem with hmem | hmem
    · have := runTrace_dataset env (configs.take i) _ hmem
      exact hdj_take (by simpa [evDataset] using this)
    · have := download_dataset_trace_dataset di (env di) _ hmem
      exact hdj_ne (by simpa [evDataset] using this)
  omega

/-- Witness for C9: two datasets that both complete on their first attempt;
the rename of `Equity` (trace index 2) precedes the search click of `Bond`
(trace index 3). -/
theorem run_sequential_ordering_witness : (2 : Nat) < 3 :=
  run_sequential_ordering (fun _ _ => StepOutcome.completes) ["Equity", "Bond"]
    (by decide) 0 1 "Equity" "Bond" rfl rfl (by decide) 2 3 0 0 (by decide) (by decide)
/-! ### C10 — `KOFIAScraper.run` success summary NameError (scraper.py lines 1856-1948)

When navigation and the dataset loop complete without error, the success
summary (lines 1914-1931) logs, in order, `total_duration`, `nav_duration`,
`download_duration` and then `process_duration` (line 1923).  The only
assignment to `process_duration` is commented out (line 1911), so in Python
the reference raises `NameError`.  `runAssignedVars` lists the local names
`run` has assigned by the time the summary executes (lines 1858-1915);
`summaryReferencedVars` lists the names the summary lines reference, in
order.  The `NameError` is an `Exception`, caught by the handler at line
1933, which only logs — so `run` always finishes through the
failure-logging path, raises nothing to its caller, and the `finally`
block (lines 1945-1948) always quits the WebDriver. -/

def runAssignedVars : List String :=
  ["start_time", "success_count", "failure_count", "total_datasets", "nav_start",
   "nav_duration", "idx", "config", "dataset_start", "dataset_duration",
   "download_duration", "total_duration"]

def summaryReferencedVars : List String :=
  ["total_duration", "nav_duration", "download_duration", "process_duration",
   "total_datasets", "success_count", "failure_count"]

/-- The first name the summary references that was never assigned — in
Python, its evaluation raises `NameError`. -/
def firstUnboundVar : Option String :=
  summaryReferencedVars.find? (fun v => !(runAssignedVars.contains v))

inductive RunEnding where
  | successSummary
  | failureLogged
deriving DecidableEq, Repr

structure RunResult where
  ending : RunEnding
  raisesToCaller : Bool
  driverQuit : Bool
deriving DecidableEq, Repr

/-- `KOFIAScraper.run`: the body runs under `try`/`except Exception`
(line 1933, logs only)/`finally` (line 1945, quits the driver).
`bodyRaisesEarlier` abstracts whether navigation or the dataset loop raised
before the summary; otherwise the summary executes until its first unbound
name reference raises `NameError`. -/
def run (bodyRaisesEarlier : Bool) : RunResult :=
  if bodyRaisesEarlier then
    ⟨RunEnding.failureLogged, false, true⟩
  else
    match firstUnboundVar with
    | some _ => ⟨RunEnding.failureLogged, false, true⟩
    | none => ⟨RunEnding.successSummary, false, true⟩

/-- Claim C10: the summary's first unbound reference is `process_duration`
(its assignment is commented out), so in sequential mode `run()` never
reaches the end of its success summary: whether or not the body failed
earlier, it always ends via the failure-logging path, never raises to its
caller, and always quits the WebDriver in its `finally` block. -/
theorem run_summary_name_error :
    firstUnboundVar = some "process_duration"
    ∧ ∀ b, run b = ⟨RunEnding.failureLogged, false, true⟩ := by
  refine ⟨by decide, ?_⟩
  intro b
  cases b <;> rfl
end KMFK
